import Mathlib

/-!
Verification of the raster-processing notebook `CodeSprints/RasterData_101.ipynb`.

The notebook builds two pipelines over raster grids:
an elevation pipeline (masked read, meters→feet conversion, reclassification
with `np.digitize`, water-mask construction and application) and an imagery
pipeline (NDVI band ratio and temporal differencing).

Embedding choices:
* Floating-point sample values are embedded as rationals `ℚ`; the IEEE
  infinities that the notebook manipulates explicitly (`np.inf`, `-np.inf`)
  are embedded by the extended type `XVal` below.
* A masked array (numpy `MaskedArray`) is a list of cells, each carrying its
  underlying stored value together with a mask flag; equivalently, where only
  the exposed value matters, a list of `Option ℚ` with `none` for an
  excluded (no-data) cell.
* Several notebook cells are blank "Task N" placeholders for the student;
  the definitions embedding them are marked `Modelled from the spec:` and
  follow the spec's wording for the missing operation.
-/

/-- An IEEE-style extended sample value: `-inf`, a finite value, or `+inf`.
The notebook stores `-np.inf` at no-data cells (sentinel × factor underflows)
and uses `np.inf` as the last bin edge. NaN never arises in the fragments we
model, so it is not represented. -/
inductive XVal where
  | negInf : XVal
  | fin : ℚ → XVal
  | posInf : XVal
deriving DecidableEq, Repr

namespace XVal

/-- The `≤` comparison on extended values, as IEEE comparison behaves on
`-inf < finite < +inf` (no NaN involved). -/
def le : XVal → XVal → Bool
  | .negInf, _ => true
  | .fin _, .negInf => false
  | .fin a, .fin b => a ≤ b
  | .fin _, .posInf => true
  | .posInf, .posInf => true
  | .posInf, _ => false

end XVal

/-- `np.digitize(x, bins)` with the default `right=False` for a monotonically
increasing `bins`: the returned index is the number of bin edges `b` with
`b ≤ x` (numpy implements it as `searchsorted(bins, x, side='right')`), so
`x < bins[0] ↦ 0`, `bins[i-1] ≤ x < bins[i] ↦ i`, `x ≥ bins[-1] ↦ len(bins)`. -/
def digitizeX (x : XVal) (bins : List XVal) : ℕ :=
  bins.countP (fun b => b.le x)

/-- `np.digitize` restricted to finite values and finite bin edges,
for properties quantified over real sample values. -/
def digitizeQ (v : ℚ) (bins : List ℚ) : ℕ :=
  bins.countP (fun b => decide (b ≤ v))

/-- One cell of a numpy masked array: the underlying stored value (`.data`)
plus the mask flag. Reductions and plots ignore masked cells, but the
underlying value is still stored and is what `np.digitize` sees. -/
structure MCell where
  data : XVal
  masked : Bool
deriving DecidableEq, Repr

/-- `dem_waterline = np.digitize(dem_feet, class_bins)` (notebook cell 52):
`np.digitize` works on the underlying data of the masked array and returns a
plain integer array — the mask is dropped, which is why cell 53 observes the
extra class `0` and cell 55 documents `0` as "previously no data". -/
def digitizeRaster (cells : List MCell) (bins : List XVal) : List ℕ :=
  cells.map (fun c => digitizeX c.data bins)

/-- `class_bins = [dem_feet.min(), 5642, np.inf]` (notebook cell 51),
parameterised by the masked minimum `m` of `dem_feet`. -/
def classBins (m : ℚ) : List XVal :=
  [XVal.fin m, XVal.fin 5642, XVal.posInf]

/-- `np.digitize` requires its bins to be monotonically increasing; this is
the validity check on a bin list, pairwise `≤` on consecutive edges. -/
def isMonotonicIncreasing : List XVal → Bool
  | [] => true
  | [_] => true
  | a :: b :: rest => a.le b && isMonotonicIncreasing (b :: rest)

/-- The meters→feet conversion factor 3.28084 used by the notebook. -/
def metersToFeetFactor : ℚ := 328084 / 100000

/-- Modelled from the spec: Task 2 (`dem_feet`) is a blank placeholder in the
notebook; the spec (§4.2, §8) defines unit conversion as the pure elementwise
transform `output[i] = input[i] * 3.28084` that propagates the no-data mask
unchanged. A raster with mask is a list of `Option ℚ`, `none` at excluded
cells. -/
def convert (r : List (Option ℚ)) : List (Option ℚ) :=
  r.map (Option.map (fun q => q * metersToFeetFactor))

/-- Masking a raw raster `R` by an exclusion set `M` (`true` = excluded):
the exposed value is dropped at excluded cells. -/
def maskRaster (R : List ℚ) (M : List Bool) : List (Option ℚ) :=
  List.zipWith (fun q m => if m then none else some q) R M

/-- The excluded-cell set of a masked raster. -/
def excludedSet (r : List (Option ℚ)) : List Bool :=
  r.map Option.isNone

/-- Modelled from the spec: Task 6 (`NDVI_pre`) is a blank placeholder in the
notebook; the spec (§4.5) defines the band-ratio index as elementwise
`(A - B) / (A + B)` with an explicit zero-denominator guard: cells where
`A + B = 0` are masked out, and a masked operand yields a masked result. -/
def ndviCell : Option ℚ → Option ℚ → Option ℚ
  | some a, some b => if a + b = 0 then none else some ((a - b) / (a + b))
  | _, _ => none

/-- The band-ratio index of two same-shape bands, cell by cell. -/
def ndvi (A B : List (Option ℚ)) : List (Option ℚ) :=
  List.zipWith ndviCell A B

/-- Modelled from the spec: Task 8 (`NDVI_post` / change map) is a blank
placeholder in the notebook; the spec (§4.6) defines temporal differencing as
elementwise subtraction with masked-array semantics: a masked operand yields
a masked result. -/
def diffCell : Option ℚ → Option ℚ → Option ℚ
  | some a, some b => some (a - b)
  | _, _ => none

/-- Temporal difference of two index rasters, cell by cell. -/
def ndviDiff (X Y : List (Option ℚ)) : List (Option ℚ) :=
  List.zipWith diffCell X Y

/-- Modelled from the spec: Tasks 4 and 5 (`water_mask`, `water_masked_DEM`)
are blank placeholders in the notebook; its markdown (cell 55) defines mask
application as elementwise multiplication with masked-array semantics:
`value × 1 = value`, `value × no-data = no-data`. -/
def mulCell : Option ℚ → Option ℚ → Option ℚ
  | some a, some b => some (a * b)
  | _, _ => none

/-- Applying a binary mask raster to a target raster by elementwise
multiplication, cell by cell. -/
def applyMask (R mask : List (Option ℚ)) : List (Option ℚ) :=
  List.zipWith mulCell R mask

/-- A binary mask raster (spec §3): value `1` on kept cells, no-data on all
others. -/
def isBinaryMask (mask : List (Option ℚ)) : Prop :=
  ∀ c ∈ mask, c = some 1 ∨ c = none

/-- Modelled from the spec: the raster reader is an external collaborator
(§4.1); `with rio.open(path) as src` (notebook cells 4, 30) yields an open
`DatasetReader` whose handle is released at scope exit on every path, and
which the notebook observes as closed afterwards (cell 32). File paths are
abstracted as identifiers and the file's band as the data held. -/
structure DatasetReader where
  path : ℕ
  data : List ℚ
  isOpen : Bool
deriving DecidableEq, Repr

/-- Reading from a closed handle fails rather than returning data. -/
inductive ReadError where
  | closedHandle : ReadError
deriving DecidableEq, Repr

/-- `src.read(1)`: returns the band's data while the handle is open, and
fails once the handle is closed. -/
def DatasetReader.read (src : DatasetReader) : Except ReadError (List ℚ) :=
  if src.isOpen then Except.ok src.data else Except.error ReadError.closedHandle

/-- Releasing the file handle: the reader survives as a closed object
(the notebook prints it as a closed `DatasetReader`). -/
def DatasetReader.close (src : DatasetReader) : DatasetReader :=
  { src with isOpen := false }

/-- `rio.open(path)` acquires an open handle on the file. -/
def rioOpen (path : ℕ) (d : List ℚ) : DatasetReader :=
  ⟨path, d, true⟩

/-- Modelled from the spec: the `with` statement (§4.1, §5) — scoped
acquisition runs the body on the open handle and releases the handle at scope
exit regardless of the body's success or failure; the closed handle is what
remains in scope afterwards. The body's outcome is an `Except` so that the
failure path is represented. -/
def withOpen {α : Type} (path : ℕ) (d : List ℚ)
    (body : DatasetReader → Except ReadError α) :
    Except ReadError α × DatasetReader :=
  let src := rioOpen path d
  (body src, src.close)

/-- A numpy array as held in session state: underlying data plus mask
(a plain `ndarray` is one with an all-`false` mask). -/
structure MArr where
  data : List XVal
  mask : List Bool
deriving DecidableEq, Repr

/-- `np.ma.masked_where(cond, a)` as a value: same data, with the mask
additionally set wherever the condition holds on the data. -/
def maskedWhere (cond : XVal → Bool) (a : MArr) : MArr :=
  ⟨a.data, List.zipWith (fun v m => cond v || m) a.data a.mask⟩

/-- Session state: the arrays held by the running session, referenced by
index. -/
abbrev SessionState : Type := List MArr

/-- `np.ma.masked_where(cond, a, copy=True)` (notebook cell 46) as a step on
session state: with `copy=True` numpy allocates a fresh array for the result
instead of aliasing the input's buffer, so the step appends a new array and
returns its reference, leaving every existing array untouched. -/
def maskedWhereCopy (cond : XVal → Bool) (ref : ℕ) (st : SessionState) :
    ℕ × SessionState :=
  (st.length, st ++ [maskedWhere cond ((st.get? ref).getD ⟨[], []⟩)])

/-! ### Shared helper lemmas -/

/-- Indexing into a `zipWith` of two lists. -/
theorem get?_zipWith {α β γ : Type} (f : α → β → γ) :
    ∀ (l₁ : List α) (l₂ : List β) (i : ℕ),
      (List.zipWith f l₁ l₂).get? i =
        match l₁.get? i, l₂.get? i with
        | some a, some b => some (f a b)
        | _, _ => none
  | [], _, _ => by cases ‹List β› <;> simp [List.zipWith]
  | _ :: _, [], _ => by simp [List.zipWith]
  | _ :: t₁, _ :: t₂, 0 => by simp [List.zipWith]
  | _ :: t₁, _ :: t₂, i + 1 => by
      simpa [List.zipWith] using get?_zipWith f t₁ t₂ i

/-- On a sorted bin list, the `searchsorted`-count form of `np.digitize`
coincides with "index of the first boundary the value is strictly less
than" (with no such boundary mapping to `len(bins)`, since `findIdx`
returns the length on failure). -/
theorem digitizeQ_eq_findIdx (v : ℚ) :
    ∀ (B : List ℚ), B.Sorted (· ≤ ·) →
      digitizeQ v B = B.findIdx (fun b => decide (v < b))
  | [], _ => rfl
  | b :: bs, hB => by
      rcases List.sorted_cons.mp hB with ⟨hb, hbs⟩
      by_cases h : b ≤ v
      · have hnb : decide (v < b) = false := by simp [not_lt.mpr h]
        have hrec := digitizeQ_eq_findIdx v bs hbs
        simp only [digitizeQ] at hrec
        simp [digitizeQ, List.countP_cons, List.findIdx_cons, h, hnb, hrec]
      · have hzero : List.countP (fun b => decide (b ≤ v)) bs = 0 :=
          List.countP_eq_zero.mpr (fun b₁ hb₁ => by
            simp only [decide_eq_true_eq]
            exact fun hle => h (le_trans (hb b₁ hb₁) hle))
        have hvb : decide (v < b) = true := by simp [lt_of_not_le h]
        simp [digitizeQ, List.countP_cons, List.findIdx_cons, h, hvb, hzero]

/-! ### Claim theorems -/

/-- C5: for every ascending boundary sequence `B` and values `v ≤ w`, the
reclassification `np.digitize` is non-decreasing in the value, every value
maps to exactly one label in `[0, len(B)]` (totality is definitional: the
embedding is a function into `ℕ`), and the label is the index of the first
boundary the value is strictly less than. -/
theorem digitize_monotone_total (B : List ℚ) (v w : ℚ)
    (hB : B.Sorted (· ≤ ·)) (hvw : v ≤ w) :
    digitizeQ v B ≤ digitizeQ w B ∧
    digitizeQ v B ≤ B.length ∧
    digitizeQ v B = B.findIdx (fun b => decide (v < b)) := by
  refine ⟨?_, ?_, digitizeQ_eq_findIdx v B hB⟩
  · exact List.countP_mono_left (fun b _ hbv => by
      simp only [decide_eq_true_eq] at hbv ⊢
      exact le_trans hbv hvw)
  · exact List.countP_le_length _

/-- Witness for C5 at `B = [1000, 1005]`, `v = 3`, `w = 1002`. -/
theorem digitize_monotone_total_witness :
    digitizeQ 3 [1000, 1005] ≤ digitizeQ 1002 [1000, 1005] ∧
    digitizeQ 3 [1000, 1005] ≤ ([1000, 1005] : List ℚ).length ∧
    digitizeQ 3 [1000, 1005] =
      ([1000, 1005] : List ℚ).findIdx (fun b => decide ((3 : ℚ) < b)) :=
  digitize_monotone_total [1000, 1005] 3 1002
    (by simp [List.sorted_cons]; norm_num) (by norm_num)

/-- C9: `class_bins = [dem_feet.min(), 5642, np.inf]` is monotonically
increasing — the validity precondition of `np.digitize` — if and only if
the data minimum is at most 5642; a raster whose minimum exceeds 5642
violates the (unchecked) precondition. -/
theorem classBins_monotonic_iff (m : ℚ) :
    isMonotonicIncreasing (classBins m) = true ↔ m ≤ 5642 := by
  simp [isMonotonicIncreasing, classBins, XVal.le]

/-- Witness for C9 at a data minimum of 5000 feet (≤ 5642): the bins are
monotonically increasing. -/
theorem classBins_monotonic_iff_witness :
    isMonotonicIncreasing (classBins 5000) = true :=
  (classBins_monotonic_iff 5000).mpr (by norm_num)

/-- The spec's example scenario, flattened: a masked elevation raster with a
no-data corner (underlying `-inf`, as the notebook stores after scaling the
sentinel) and finite values 1000, 1004, 1005, 1008 feet elsewhere. -/
def exCells : List MCell :=
  [⟨XVal.negInf, true⟩, ⟨XVal.fin 1000, false⟩, ⟨XVal.fin 1004, false⟩,
   ⟨XVal.fin 1005, false⟩, ⟨XVal.fin 1008, false⟩]

/-- The scenario's bins `[data-min, threshold, inf] = [1000, 1005, inf]`. -/
def exBins : List XVal :=
  [XVal.fin 1000, XVal.fin 1005, XVal.posInf]

/-- C1 counterexample: on the spec's example scenario the masked corner does
NOT remain masked — `np.digitize` classifies the underlying `-inf` below the
lowest bin and returns a plain integer array, so the previously-masked cell
receives exactly class 0 (the full output is `[0, 1, 1, 2, 2]`), as the
notebook itself documents ("0 represents what was previously no data"). -/
theorem digitizeRaster_mask_counterexample :
    (exCells.get? 0).map MCell.masked = some true ∧
    (digitizeRaster exCells exBins).get? 0 = some 0 ∧
    digitizeRaster exCells exBins = [0, 1, 1, 2, 2] := by
  refine ⟨rfl, ?_, ?_⟩ <;> decide

/-- C1 (amended): reclassifying a masked elevation raster with bins
`[data-min, threshold, inf]` maps every previously-masked cell (underlying
value `-inf`) to class 0 in the plain integer output — the mask is dropped,
not preserved — while every unmasked cell receives class 1 if its value is
below the threshold and class 2 if at or above it. -/
theorem digitizeRaster_classes (cells : List MCell) (m t : ℚ) (i : ℕ)
    (hmask : ∀ c ∈ cells, c.masked = true → c.data = XVal.negInf)
    (hmin : ∀ c ∈ cells, c.masked = false → (XVal.fin m).le c.data = true) :
    ∀ c, cells.get? i = some c →
      ((c.masked = true →
          (digitizeRaster cells [XVal.fin m, XVal.fin t, XVal.posInf]).get? i
            = some 0) ∧
       (∀ q, c.masked = false → c.data = XVal.fin q → q < t →
          (digitizeRaster cells [XVal.fin m, XVal.fin t, XVal.posInf]).get? i
            = some 1) ∧
       (∀ q, c.masked = false → c.data = XVal.fin q → t ≤ q →
          (digitizeRaster cells [XVal.fin m, XVal.fin t, XVal.posInf]).get? i
            = some 2)) := by
  intro c hc
  have hmem : c ∈ cells := List.get?_mem hc
  have hout : (digitizeRaster cells [XVal.fin m, XVal.fin t, XVal.posInf]).get? i
      = some (digitizeX c.data [XVal.fin m, XVal.fin t, XVal.posInf]) := by
    rw [digitizeRaster, List.get?_map, hc]
    rfl
  refine ⟨?_, ?_, ?_⟩
  · intro hm
    rw [hout, hmask c hmem hm]
    simp [digitizeX, XVal.le, List.countP_cons, List.countP_nil]
  · intro q hm hq hqt
    have hmq : (XVal.fin m).le (XVal.fin q) = true := by
      rw [← hq]; exact hmin c hmem hm
    simp only [XVal.le, decide_eq_true_eq] at hmq
    rw [hout, hq]
    simp [digitizeX, List.countP_cons, XVal.le, hmq, not_le.mpr hqt]
  · intro q hm hq htq
    have hmq : (XVal.fin m).le (XVal.fin q) = true := by
      rw [← hq]; exact hmin c hmem hm
    simp only [XVal.le, decide_eq_true_eq] at hmq
    rw [hout, hq]
    simp [digitizeX, List.countP_cons, XVal.le, hmq, htq]

/-- Witness for the amended C1 on the example scenario: the masked corner
(index 0) receives class 0, and the unmasked cell at index 3 (value 1005,
at the threshold) receives class 2. -/
theorem digitizeRaster_classes_witness :
    (digitizeRaster exCells [XVal.fin 1000, XVal.fin 1005, XVal.posInf]).get? 0
      = some 0 ∧
    (digitizeRaster exCells [XVal.fin 1000, XVal.fin 1005, XVal.posInf]).get? 3
      = some 2 :=
  ⟨(digitizeRaster_classes exCells 1000 1005 0 (by decide) (by decide)
      ⟨XVal.negInf, true⟩ (by decide)).1 rfl,
   ((digitizeRaster_classes exCells 1000 1005 3 (by decide) (by decide)
      ⟨XVal.fin 1005, false⟩ (by decide)).2.2) 1005 rfl rfl (by norm_num)⟩

/-- The excluded-cell set survives conversion of a masked raster unchanged. -/
theorem excludedSet_convert_maskRaster :
    ∀ (R : List ℚ) (M : List Bool), R.length = M.length →
      excludedSet (convert (maskRaster R M)) = M
  | [], [], _ => rfl
  | [], _ :: _, h => by simp at h
  | _ :: _, [], h => by simp at h
  | q :: R, m :: M, h => by
      have ih := excludedSet_convert_maskRaster R M (by simpa using h)
      cases m <;> simp [maskRaster, convert, excludedSet] at ih ⊢ <;> exact ih

/-- C2: unit conversion is linear and mask-preserving — the excluded-cell
set of `convert (maskRaster R M)` is exactly `M`, every non-excluded cell is
multiplied by exactly 3.28084, and converting a masked cell yields a masked
cell, never a spurious finite value. -/
theorem convert_linear_mask_preserving (R : List ℚ) (M : List Bool)
    (r : List (Option ℚ)) (i : ℕ) (h : R.length = M.length) :
    excludedSet (convert (maskRaster R M)) = M ∧
    (∀ q : ℚ, r.get? i = some (some q) →
      (convert r).get? i = some (some (q * metersToFeetFactor))) ∧
    (r.get? i = some none → (convert r).get? i = some none) := by
  refine ⟨excludedSet_convert_maskRaster R M h, ?_, ?_⟩
  · intro q hq
    rw [convert, List.get?_map, hq]
    rfl
  · intro hq
    rw [convert, List.get?_map, hq]
    rfl

/-- Witness for C2 at `R = [2, 7]`, `M = [false, true]`,
`r = [some 2, none]`, `i = 0`: the kept cell is scaled by 3.28084 and the
masked cell stays masked. -/
theorem convert_linear_mask_preserving_witness :
    excludedSet (convert (maskRaster [2, 7] [false, true])) = [false, true] ∧
    (convert [some 2, none]).get? 0 = some (some (2 * metersToFeetFactor)) ∧
    (convert [some 2, none]).get? 1 = some none := by
  have h₁ := convert_linear_mask_preserving [2, 7] [false, true]
      [some 2, none] 0 rfl
  have h₂ := convert_linear_mask_preserving [2, 7] [false, true]
      [some 2, none] 1 rfl
  exact ⟨h₁.1, h₁.2.1 2 rfl, h₂.2.2 rfl⟩

/-- C3: wherever the denominator `A + B` is zero, the band-ratio index is
masked in the output — the embedding is a total function into `Option ℚ`,
so no division error is raised and no IEEE NaN or Infinity can be produced
at such cells. -/
theorem ndvi_zero_denominator_masked (A B : List (Option ℚ)) (i : ℕ)
    (a b : ℚ) (hA : A.get? i = some (some a)) (hB : B.get? i = some (some b))
    (hab : a + b = 0) : (ndvi A B).get? i = some none := by
  rw [ndvi, get?_zipWith, hA, hB]
  simp [ndviCell, hab]

/-- Witness for C3 at `A = [some 1]`, `B = [some (-1)]`, `i = 0`. -/
theorem ndvi_zero_denominator_masked_witness :
    (ndvi [some 1] [some (-1)]).get? 0 = some none :=
  ndvi_zero_denominator_masked [some 1] [some (-1)] 0 1 (-1) rfl rfl
    (by norm_num)

/-- C6: at any cell with non-negative band values and nonzero denominator,
the band-ratio index is defined (not masked) and lies in `[-1, 1]`. -/
theorem ndvi_bounded (A B : List (Option ℚ)) (i : ℕ) (a b : ℚ)
    (hA : A.get? i = some (some a)) (hB : B.get? i = some (some b))
    (ha : 0 ≤ a) (hb : 0 ≤ b) (hab : a + b ≠ 0) :
    ∃ x : ℚ, (ndvi A B).get? i = some (some x) ∧ -1 ≤ x ∧ x ≤ 1 := by
  have hpos : 0 < a + b := lt_of_le_of_ne (by linarith) (Ne.symm hab)
  refine ⟨(a - b) / (a + b), ?_, ?_, ?_⟩
  · rw [ndvi, get?_zipWith, hA, hB]
    simp [ndviCell, hab]
  · rw [le_div_iff hpos]
    linarith
  · rw [div_le_one hpos]
    linarith

/-- Witness for C6 at `A = [some 3]`, `B = [some 1]`, `i = 0`. -/
theorem ndvi_bounded_witness :
    ∃ x : ℚ, (ndvi [some 3] [some 1]).get? 0 = some (some x) ∧
      -1 ≤ x ∧ x ≤ 1 :=
  ndvi_bounded [some 3] [some 1] 0 3 1 rfl rfl (by norm_num) (by norm_num)
    (by norm_num)

/-- C7: differencing an index raster with itself is zero at every unmasked
cell and masked at every masked cell. -/
theorem ndviDiff_self (X : List (Option ℚ)) (i : ℕ) :
    (∀ q : ℚ, X.get? i = some (some q) →
      (ndviDiff X X).get? i = some (some 0)) ∧
    (X.get? i = some none → (ndviDiff X X).get? i = some none) := by
  constructor
  · intro q hq
    rw [ndviDiff, get?_zipWith, hq]
    simp [diffCell]
  · intro hq
    rw [ndviDiff, get?_zipWith, hq]
    rfl

/-- Witness for C7 at `X = [some 3, none]`: index 0 differences to zero and
index 1 stays masked. -/
theorem ndviDiff_self_witness :
    (ndviDiff [some 3, none] [some 3, none]).get? 0 = some (some 0) ∧
    (ndviDiff [some 3, none] [some 3, none]).get? 1 = some none :=
  ⟨(ndviDiff_self [some 3, none] 0).1 3 rfl,
   (ndviDiff_self [some 3, none] 1).2 rfl⟩

/-- C4: applying a binary mask by elementwise multiplication leaves every
kept cell (`mask[i] = 1`) exactly unchanged and yields no-data — not zero
and not an error (the embedding is total) — at every in-range cell where the
mask is not 1. -/
theorem applyMask_keep_absorb (R mask : List (Option ℚ)) (i : ℕ)
    (hbin : isBinaryMask mask) :
    (∀ v : Option ℚ, mask.get? i = some (some 1) → R.get? i = some v →
      (applyMask R mask).get? i = some v) ∧
    (∀ c : Option ℚ, mask.get? i = some c → c ≠ some 1 → i < R.length →
      (applyMask R mask).get? i = some none) := by
  constructor
  · intro v hm hR
    rw [applyMask, get?_zipWith, hR, hm]
    cases v <;> simp [mulCell]
  · intro c hm hc hi
    have hnone : c = none := by
      rcases hbin c (List.get?_mem hm) with h1 | h1
      · exact absurd h1 hc
      · exact h1
    obtain ⟨v, hv⟩ : ∃ v, R.get? i = some v :=
      ⟨R.get ⟨i, hi⟩, List.get?_eq_get hi⟩
    rw [applyMask, get?_zipWith, hv, hm, hnone]
    cases v <;> rfl

/-- Witness for C4 at `R = [some 5, some 7]`, `mask = [some 1, none]`:
index 0 is kept unchanged, index 1 becomes no-data. -/
theorem applyMask_keep_absorb_witness :
    (applyMask [some 5, some 7] [some 1, none]).get? 0 = some (some 5) ∧
    (applyMask [some 5, some 7] [some 1, none]).get? 1 = some none :=
  ⟨(applyMask_keep_absorb [some 5, some 7] [some 1, none] 0
      (by unfold isBinaryMask; decide)).1 (some 5) rfl rfl,
   (applyMask_keep_absorb [some 5, some 7] [some 1, none] 1
      (by unfold isBinaryMask; decide)).2 none rfl (by decide) (by decide)⟩

/-- C8: within the scope, reading the open handle returns the data; at scope
exit the handle is released on every path — the body's outcome, success or
failure, does not appear in the exit state — and any read of the handle
after the scope ends fails with a closed-handle error instead of returning
data. -/
theorem withOpen_scoped_release {α : Type} (path : ℕ) (d : List ℚ)
    (body : DatasetReader → Except ReadError α) :
    (rioOpen path d).read = Except.ok d ∧
    ((withOpen path d body).2).isOpen = false ∧
    ((withOpen path d body).2).read = Except.error ReadError.closedHandle :=
  ⟨rfl, rfl, rfl⟩

/-- Witness for C8 on a concrete scoped read: after the scope ends, reading
the handle fails with a closed-handle error. -/
theorem withOpen_scoped_release_witness :
    ((withOpen 0 [3] (fun src => src.read)).2).read
      = Except.error ReadError.closedHandle :=
  (withOpen_scoped_release 0 [3] (fun src => src.read)).2.2

/-- C10: `np.ma.masked_where(cond, a, copy=True)` returns a fresh array and
leaves every element and the mask state of the input — and of every other
array in the session — unchanged; the fresh reference holds the newly
masked copy. -/
theorem maskedWhereCopy_frame (cond : XVal → Bool) (ref : ℕ)
    (st : SessionState) (h : ref < st.length) :
    (maskedWhereCopy cond ref st).2.get? ref = st.get? ref ∧
    (maskedWhereCopy cond ref st).1 ≠ ref ∧
    (∀ j, j < st.length →
      (maskedWhereCopy cond ref st).2.get? j = st.get? j) ∧
    (maskedWhereCopy cond ref st).2.get? (maskedWhereCopy cond ref st).1 =
      some (maskedWhere cond ((st.get? ref).getD ⟨[], []⟩)) := by
  refine ⟨List.get?_append h, Nat.ne_of_gt h, ?_, ?_⟩
  · intro j hj
    exact List.get?_append hj
  · exact List.get?_concat_length st _

/-- Witness for C10: masking `-inf` out of a session holding one two-cell
array leaves that array untouched at its reference and stores the masked
copy at the fresh reference. -/
theorem maskedWhereCopy_frame_witness :
    (maskedWhereCopy (fun v => decide (v = XVal.negInf)) 0
        [⟨[XVal.negInf, XVal.fin 5], [false, false]⟩]).2.get? 0 =
      some ⟨[XVal.negInf, XVal.fin 5], [false, false]⟩ ∧
    (maskedWhereCopy (fun v => decide (v = XVal.negInf)) 0
        [⟨[XVal.negInf, XVal.fin 5], [false, false]⟩]).1 ≠ 0 := by
  have hfr := maskedWhereCopy_frame (fun v => decide (v = XVal.negInf)) 0
      [⟨[XVal.negInf, XVal.fin 5], [false, false]⟩] (by decide)
  exact ⟨hfr.1, hfr.2.1⟩
